import Mathlib

/-!
Shallow embedding of the Tabletop Audio fulfillment webhook
(`src/functions/src/index.ts` and the session-entities variant,
which share the same matcher, normalizer, suggestion and handler logic).

Machine strings are modelled as Lean `String` (lists of `Char`);
JavaScript `toLowerCase` is modelled by `Char.toLower` per character
(ASCII lowering, which agrees with JS on the basic-latin range the
catalog and the claims concern). Randomness (`Math.random`) is modelled
by explicit numeric parameters: a draw `Math.floor(Math.random() * n)`
ranges over `0..n-1` and is represented by `r % n` for an arbitrary
`r : Nat`. Fallible JS array indexing (`xs[0]` on a possibly empty
array yields `undefined`) is modelled by `List.getD` with a default;
every claim that touches such an index carries the corresponding
non-emptiness precondition.
-/

/-- One audio item of the remote catalog, from `tabletopAudio.ts`'s
`TabletopAudioTrack` as consumed by `index.ts`. -/
structure TabletopAudioTrack where
  track_title : String
  track_genre : List String
  tags : List String
  link : String
  large_image : String
  flavor_text : String
deriving DecidableEq, Repr

/-- The remote catalog document: `TabletopAudioResponse` with its `tracks`. -/
structure TabletopAudioResponse where
  tracks : List TabletopAudioTrack
deriving DecidableEq, Repr

/-- Per-session mutable data (`TabletopAudioSession`): the lazily cached
catalog and the optional current track. -/
structure Session where
  json : Option TabletopAudioResponse
  currentTrack : Option TabletopAudioTrack
deriving DecidableEq, Repr

/-- Default used to model JS out-of-range indexing; never reached under the
preconditions of the theorems below. -/
def defaultTrack : TabletopAudioTrack :=
  { track_title := "", track_genre := [], tags := [], link := ""
    large_image := "", flavor_text := "" }

/-- JS `String.prototype.toLowerCase`, per character (ASCII range). -/
def lowerString (s : String) : String :=
  String.mk (s.data.map Char.toLower)

/-- JS regex word character `\w`, i.e. `[A-Za-z0-9_]`. -/
def isWordChar (c : Char) : Bool :=
  c.isAlphanum || c == '_'

/-- The global replace `.replace(/(\w):(\w)/g, '$1 $2')` of `sanitizeTitle`:
left-to-right, non-overlapping scan; a match consumes its three characters
and scanning resumes after them, a failed attempt advances one character
(lists shorter than three characters admit no match). -/
def replColonPass : List Char → List Char
  | [] => []
  | [a] => [a]
  | [a, b] => [a, b]
  | a :: b :: c0 :: rest =>
    if b = ':' && isWordChar a && isWordChar c0 then a :: ' ' :: c0 :: replColonPass rest
    else a :: replColonPass (b :: c0 :: rest)

/-- `sanitizeTitle` (`index.ts` lines 107-112): lower-case, replace
`<word>:<word>` by `<word> <word>`, then drop every remaining colon
(`.replace(/:/g, '')`). -/
def sanitizeTitle (title : String) : String :=
  String.mk (List.filter (fun c => c != ':') (replColonPass (List.map Char.toLower title.data)))

/-- JS `s.indexOf(pat) > -1`: `pat` occurs contiguously in `s`
(always true for the empty pattern). -/
def hasSubstr (s pat : String) : Bool :=
  decide (pat.data <:+: s.data)

/-- The exact-title test of the `Play` loop (`index.ts` line 124):
the pre-sanitized search is a substring of the sanitized track title. -/
def titleHit (search : String) (track : TabletopAudioTrack) : Bool :=
  hasSubstr (sanitizeTitle track.track_title) search

/-- The category test of the `Play` loop (`index.ts` line 131): the search
equals (full-string) one of the lower-cased genres or tags. -/
def categoryHit (search : String) (track : TabletopAudioTrack) : Bool :=
  (track.track_genre.map lowerString).contains search
    || (track.tags.map lowerString).contains search

/-- Outcome of the `Play` scan: the three return points of the handler. -/
inductive MatchResult where
  | exact (track : TabletopAudioTrack)
  | category (tracks : List TabletopAudioTrack)
  | noMatch
deriving DecidableEq, Repr

/-- The `for (const track of tracks)` loop of `Play` (`index.ts` 119-144)
viewed as a classifier: first exact-title hit returns immediately;
category hits accumulate in `searchResults`; after the loop a non-empty
accumulator yields a category result, otherwise no match. -/
def matchLoop (search : String) : List TabletopAudioTrack → List TabletopAudioTrack → MatchResult
  | track :: rest, searchResults =>
    if titleHit search track then MatchResult.exact track
    else if categoryHit search track then matchLoop search rest (searchResults ++ [track])
    else matchLoop search rest searchResults
  | [], searchResults =>
    if searchResults.isEmpty then MatchResult.noMatch
    else MatchResult.category searchResults

/-- The `Play` matcher: sanitize the search parameter, then scan. -/
def matchTracks (tracks : List TabletopAudioTrack) (searchParam : String) : MatchResult :=
  matchLoop (sanitizeTitle searchParam) tracks []

example : sanitizeTitle "Forest: Day" = "forest day" := by decide
example : sanitizeTitle "a:b:c" = "a bc" := by decide
example : sanitizeTitle ":::" = "" := by decide

/-- The media card built by `generateMediaResponse` (`index.ts` 65-75). -/
structure MediaObject where
  name : String
  url : String
  description : String
  imageUrl : String
  imageAlt : String
deriving DecidableEq, Repr

/-- `generateMediaResponse`: media card for a track. -/
def generateMediaResponse (track : TabletopAudioTrack) : MediaObject :=
  { name := track.track_title
    url := track.link
    description := track.flavor_text
    imageUrl := track.large_image
    imageAlt := "Track art for " ++ track.track_title }

/-- One outgoing response fragment (`conv.ask(...)` argument): plain text,
a SimpleResponse (display text and speech), a media object, or a
suggestion-chip list. -/
inductive Fragment where
  | text (s : String)
  | simple (text speech : String)
  | media (m : MediaObject)
  | sugg (chips : List String)
deriving DecidableEq, Repr

/-- Is this fragment a media object? -/
def Fragment.isMedia : Fragment → Bool
  | Fragment.media _ => true
  | _ => false

/-- Is this fragment a suggestion-chip list? -/
def Fragment.isSugg : Fragment → Bool
  | Fragment.sugg _ => true
  | _ => false

/-- `getSuggestionTrackTitle` (`index.ts` 77-79). -/
def getSuggestionTrackTitle (track : TabletopAudioTrack) : String :=
  track.track_title

/-- `getSuggestionTrackGenre` (`index.ts` 81-83): `track.track_genre[0]`;
the JS indexing of a possibly empty array is modelled with default `""`. -/
def getSuggestionTrackGenre (track : TabletopAudioTrack) : String :=
  track.track_genre.getD 0 ""

/-- `getSuggestionTag` (`index.ts` 85-87): `track.tags[0]`, same modelling. -/
def getSuggestionTag (track : TabletopAudioTrack) : String :=
  track.tags.getD 0 ""

/-- The rotation array `suggestionGenerators` (`index.ts` 93-97). -/
def suggestionGenerators : List (TabletopAudioTrack → String) :=
  [getSuggestionTrackTitle, getSuggestionTrackGenre, getSuggestionTag]

/-- `getSuggestions` (`index.ts` 91-105): six slots; slot `i` draws a random
track (`rand i % tracks.length` models `Math.floor(Math.random()*length)`)
and applies the generator selected by `i % 3`. -/
def getSuggestions (tracks : List TabletopAudioTrack) (rand : Nat → Nat) : List String :=
  (List.range 6).map (fun i =>
    let randomTrack := tracks.getD (rand i % tracks.length) defaultTrack
    (suggestionGenerators.getD (i % 3) getSuggestionTrackTitle) randomTrack)

/-- The body of the `Play` intent handler (`index.ts` 114-154, identically
`searchAndPlay` in the session-entities variant): the scan with its three
return points, producing the updated session and the asked fragments.
`catRand` models the random category pick, `sugRand` the suggestion draws. -/
def playLoop (st : Session) (allTracks : List TabletopAudioTrack) (search : String)
    (catRand : Nat) (sugRand : Nat → Nat) :
    List TabletopAudioTrack → List TabletopAudioTrack → Session × List Fragment
  | track :: rest, searchResults =>
    if titleHit search track then
      ({ st with currentTrack := some track },
       [Fragment.text ("Here is " ++ track.track_title ++ "."),
        Fragment.media (generateMediaResponse track),
        Fragment.sugg (getSuggestions allTracks sugRand)])
    else if categoryHit search track then
      playLoop st allTracks search catRand sugRand rest (searchResults ++ [track])
    else
      playLoop st allTracks search catRand sugRand rest searchResults
  | [], searchResults =>
    if searchResults.isEmpty then
      let suggestions := getSuggestions allTracks sugRand
      (st,
       [Fragment.simple
          "I can't find a track with that description. What else do you want to listen to?"
          ("I can't find a track with that description, but I found others like "
            ++ suggestions.getD 0 "" ++ ". You can also ask \"What are the latest tracks?\". "
            ++ "What would you like to listen to?"),
        Fragment.sugg suggestions])
    else
      let track := searchResults.getD (catRand % searchResults.length) defaultTrack
      ({ st with currentTrack := some track },
       [Fragment.text ("I found several tracks for the category " ++ search
          ++ ". Here is one at random: " ++ track.track_title ++ "."),
        Fragment.media (generateMediaResponse track),
        Fragment.sugg (getSuggestions allTracks sugRand)])

/-- The `Play` intent handler: sanitize the `search` parameter and scan the
cached catalog (`conv.data.json.tracks`, populated by the middleware). -/
def playHandler (st : Session) (searchParam : String) (catRand : Nat)
    (sugRand : Nat → Nat) : Session × List Fragment :=
  let tracks := (st.json.getD { tracks := [] }).tracks
  playLoop st tracks (sanitizeTitle searchParam) catRand sugRand tracks []

/-- The hit test of the `Search` intent (`index.ts` 215): lower-cased title
substring OR exact membership among lower-cased genres or tags; note this
variant lower-cases only, with no colon normalization. -/
def searchPred (search : String) (track : TabletopAudioTrack) : Bool :=
  hasSubstr (lowerString track.track_title) search
    || (track.track_genre.map lowerString).contains search
    || (track.tags.map lowerString).contains search

/-- The accumulation loop of `Search` (`index.ts` 211-218): the titles of
the hit tracks, in catalog order. -/
def searchTrackOut (search : String) : List TabletopAudioTrack → List String
  | [] => []
  | track :: rest =>
    if searchPred search track then track.track_title :: searchTrackOut search rest
    else searchTrackOut search rest

/-- The three return points of the `Search` handler (`index.ts` 219-235). -/
inductive SearchOutcome where
  | one (title : String)
  | many (count : Nat) (first3 : List String) (chips : List String)
  | noneFound (text speech : String) (chips : List String)
deriving DecidableEq, Repr

/-- The `Search` intent handler: lower-case the parameter, collect hit
titles, and report by count; it never touches `currentTrack`. -/
def searchHandler (st : Session) (searchParam : String) (sugRand : Nat → Nat) :
    Session × SearchOutcome :=
  let search := lowerString searchParam
  let trackOut := searchTrackOut search (st.json.getD { tracks := [] }).tracks
  if trackOut.length == 1 then
    (st, SearchOutcome.one (trackOut.getD 0 ""))
  else if trackOut.length > 1 then
    (st, SearchOutcome.many trackOut.length (trackOut.take 3) (trackOut.take 8))
  else
    let suggestions := getSuggestions (st.json.getD { tracks := [] }).tracks sugRand
    (st, SearchOutcome.noneFound
      "I am unable to find that audio for you. What else do you want to listen to?"
      ("I am unable to find that audio, but I found others like "
        ++ suggestions.getD 0 "" ++ ". What would you like to listen to?")
      suggestions)

/-- The fallback line of the `Repeat` handler (`index.ts` 159-160). -/
def repeatFallbackText : String :=
  "Sorry, I do not know what track you want to play. What else do you want to listen to?"

/-- The `Repeat` intent handler (`index.ts` 156-167): with no current track,
a fallback message plus suggestions and no media; otherwise the current
track's announcement, media object and suggestions. -/
def repeatHandler (st : Session) (sugRand : Nat → Nat) : Session × List Fragment :=
  match st.currentTrack with
  | none =>
    (st, [Fragment.text repeatFallbackText,
          Fragment.sugg (getSuggestions (st.json.getD { tracks := [] }).tracks sugRand)])
  | some track =>
    (st, [Fragment.text ("Once again, here's " ++ track.track_title),
          Fragment.media (generateMediaResponse track),
          Fragment.sugg (getSuggestions (st.json.getD { tracks := [] }).tracks sugRand)])

/-- `cacheResults` (`index.ts` 46-52): populate `conv.data.json` only when
absent. The returned flag records whether the remote fetch was performed;
`fetched` stands for the response the fetch would deliver. -/
def cacheResults (st : Session) (fetched : TabletopAudioResponse) : Session × Bool :=
  if st.json.isSome then (st, false)
  else ({ st with json := some fetched }, true)

/-- The `Play` scan returns through its exact-title branch with track `t`
precisely when `t` is the first track of the remaining list whose sanitized
title contains the search, regardless of the category accumulator. -/
theorem matchLoop_exact_iff (search : String) (rem : List TabletopAudioTrack) :
    ∀ acc t, matchLoop search rem acc = MatchResult.exact t ↔
      rem.find? (titleHit search) = some t := by
  induction rem with
  | nil =>
    intro acc t
    simp only [matchLoop, List.find?]
    split <;> simp
  | cons a rest ih =>
    intro acc t
    simp only [matchLoop, List.find?_cons]
    by_cases h : titleHit search a
    · simp [h]
    · by_cases hc : categoryHit search a
      · simp [h, hc, ih]
      · simp [h, hc, ih]

/-- With no exact-title hit left, the `Play` scan ends with the accumulator
extended by the category hits of the remaining list, in order. -/
theorem matchLoop_of_find_none (search : String) (rem : List TabletopAudioTrack)
    (hnone : rem.find? (titleHit search) = none) :
    ∀ acc, matchLoop search rem acc =
      (if (acc ++ rem.filter (categoryHit search)).isEmpty then MatchResult.noMatch
       else MatchResult.category (acc ++ rem.filter (categoryHit search))) := by
  induction rem with
  | nil => intro acc; simp [matchLoop]
  | cons a rest ih =>
    intro acc
    rw [List.find?_cons] at hnone
    by_cases h : titleHit search a
    · simp [h] at hnone
    · simp only [h] at hnone
      simp only [matchLoop]
      rw [if_neg (by simp [h])]
      by_cases hc : categoryHit search a
      · rw [if_pos hc, ih hnone (acc ++ [a]), List.filter_cons_of_pos hc]
        simp
      · rw [if_neg hc, ih hnone acc, List.filter_cons_of_neg (by simp [hc])]

/-- The session produced by the `Play` loop is determined by the scan's
classification: the exact hit, the random category pick, or no change. -/
theorem playLoop_fst (st : Session) (allTracks : List TabletopAudioTrack)
    (search : String) (catRand : Nat) (sugRand : Nat → Nat)
    (rem : List TabletopAudioTrack) :
    ∀ acc, (playLoop st allTracks search catRand sugRand rem acc).1 =
      (match matchLoop search rem acc with
       | MatchResult.exact t => { st with currentTrack := some t }
       | MatchResult.category cs =>
           { st with currentTrack := some (cs.getD (catRand % cs.length) defaultTrack) }
       | MatchResult.noMatch => st) := by
  induction rem with
  | nil =>
    intro acc
    simp only [playLoop, matchLoop]
    by_cases h : acc.isEmpty <;> simp [h]
  | cons a rest ih =>
    intro acc
    simp only [playLoop, matchLoop]
    by_cases h : titleHit search a
    · simp [h]
    · by_cases hc : categoryHit search a
      · simp [h, hc, ih]
      · simp [h, hc, ih]

/-- Packing a valid scalar value is faithful on code points. -/
theorem char_toNat_ofNat_valid {n : Nat} (h : n.isValidChar) :
    (Char.ofNat n).toNat = n := by
  simp [Char.ofNat, dif_pos h, Char.ofNatAux, Char.toNat, UInt32.toNat]

/-- ASCII lowering is idempotent. -/
theorem toLower_toLower (c : Char) : c.toLower.toLower = c.toLower := by
  simp only [Char.toLower]
  by_cases h : c.toNat ≥ 65 ∧ c.toNat ≤ 90
  · rw [if_pos h]
    have hv : (c.toNat + 32).isValidChar := Or.inl (by omega)
    have ht : (Char.ofNat (c.toNat + 32)).toNat = c.toNat + 32 := char_toNat_ofNat_valid hv
    rw [if_neg (by rw [ht]; omega)]
  · rw [if_neg h, if_neg h]

/-- Every character the colon-replace pass emits is an input character or
the inserted space. -/
theorem mem_replColonPass (c : Char) : ∀ (l : List Char),
    c ∈ replColonPass l → c ∈ l ∨ c = ' ' := by
  intro l
  induction l using replColonPass.induct with
  | case1 => simp [replColonPass]
  | case2 a => simp [replColonPass]; tauto
  | case3 a b => simp [replColonPass]; tauto
  | case4 a b c0 rest hw ih =>
    rw [replColonPass, if_pos hw]
    intro hc
    rcases List.mem_cons.mp hc with h | hc2
    · exact Or.inl (by simp [h])
    · rcases List.mem_cons.mp hc2 with h | hc3
      · exact Or.inr h
      · rcases List.mem_cons.mp hc3 with h | hc4
        · exact Or.inl (by simp [h])
        · rcases ih hc4 with h | h
          · exact Or.inl (by simp [h])
          · exact Or.inr h
  | case5 a b c0 rest hw ih =>
    rw [replColonPass, if_neg hw]
    intro hc
    rcases List.mem_cons.mp hc with h | hc2
    · exact Or.inl (by simp [h])
    · rcases ih hc2 with h | h
      · exact Or.inl (by simp [h])
      · exact Or.inr h

/-- The colon-replace pass leaves a colon-free list unchanged. -/
theorem replColonPass_of_no_colon : ∀ (l : List Char),
    (∀ c ∈ l, c ≠ ':') → replColonPass l = l := by
  intro l
  induction l using replColonPass.induct with
  | case1 => simp [replColonPass]
  | case2 a => simp [replColonPass]
  | case3 a b => simp [replColonPass]
  | case4 a b c0 rest hw ih =>
    intro hno
    exfalso
    have hb : b = ':' := by
      rcases Bool.and_eq_true _ _ |>.mp hw with ⟨h1, _⟩
      rcases Bool.and_eq_true _ _ |>.mp h1 with ⟨h2, _⟩
      exact of_decide_eq_true h2
    exact hno b (by simp) hb
  | case5 a b c0 rest hw ih =>
    intro hno
    rw [replColonPass, if_neg hw, ih]
    intro c hc
    exact hno c (by simp [hc])

/-- No colon survives `sanitizeTitle`. -/
theorem sanitizeTitle_no_colon (s : String) :
    ∀ c ∈ (sanitizeTitle s).data, c ≠ ':' := by
  intro c hc
  rw [sanitizeTitle] at hc
  have := List.of_mem_filter hc
  simpa using this

/-- Every character `sanitizeTitle` outputs is fixed by ASCII lowering. -/
theorem sanitizeTitle_lower_fixed (s : String) :
    ∀ c ∈ (sanitizeTitle s).data, c.toLower = c := by
  intro c hc
  rw [sanitizeTitle] at hc
  have hmem := List.mem_of_mem_filter hc
  rcases mem_replColonPass c _ hmem with h | h
  · rcases List.mem_map.mp h with ⟨d, _, rfl⟩
    exact toLower_toLower d
  · subst h; decide

/-- `sanitizeTitle` is idempotent: its output is already lower-case and
colon-free, so a second pass changes nothing. -/
theorem sanitizeTitle_idem (s : String) :
    sanitizeTitle (sanitizeTitle s) = sanitizeTitle s := by
  conv_lhs => rw [sanitizeTitle]
  have hlow : List.map Char.toLower (sanitizeTitle s).data = (sanitizeTitle s).data := by
    have := List.map_congr_left (f := Char.toLower) (g := id) (sanitizeTitle_lower_fixed s)
    simpa using this
  rw [hlow, replColonPass_of_no_colon _ (sanitizeTitle_no_colon s),
    List.filter_eq_self.mpr (by intro c hc; simpa using sanitizeTitle_no_colon s c hc)]

/-- A modular random pick from a non-empty list is one of its elements. -/
theorem getD_mod_mem {α : Type} {l : List α} (h : l ≠ []) (r : Nat) (d : α) :
    l.getD (r % l.length) d ∈ l := by
  have hlen : 0 < l.length := List.length_pos.mpr h
  have hlt : r % l.length < l.length := Nat.mod_lt _ hlen
  rw [List.getD_eq_getElem _ _ hlt]
  exact List.getElem_mem hlt

/-- The `Search` accumulation loop is the title projection of the
`searchPred` filter, in catalog order. -/
theorem searchTrackOut_eq (search : String) (l : List TabletopAudioTrack) :
    searchTrackOut search l =
      (l.filter (searchPred search)).map TabletopAudioTrack.track_title := by
  induction l with
  | nil => rfl
  | cons a rest ih =>
    by_cases h : searchPred search a
    · rw [searchTrackOut, if_pos h, List.filter_cons_of_pos h, List.map_cons, ih]
    · rw [searchTrackOut, if_neg h, List.filter_cons_of_neg (by simp [h]), ih]

/-- The `Search` handler never changes the session. -/
theorem searchHandler_fst (st : Session) (s : String) (sugRand : Nat → Nat) :
    (searchHandler st s sugRand).1 = st := by
  simp only [searchHandler]
  split
  · rfl
  · split <;> rfl

/-- The `Repeat` handler never changes the session. -/
theorem repeatHandler_fst (st : Session) (sugRand : Nat → Nat) :
    (repeatHandler st sugRand).1 = st := by
  cases h : st.currentTrack <;> simp [repeatHandler, h]

/-- The `Play` handler never touches the cached catalog. -/
theorem playHandler_fst_json (st : Session) (s : String) (catRand : Nat)
    (sugRand : Nat → Nat) : (playHandler st s catRand sugRand).1.json = st.json := by
  simp only [playHandler]
  rw [playLoop_fst]
  cases matchLoop (sanitizeTitle s) (st.json.getD { tracks := [] }).tracks [] <;> rfl

/-- C1: the play-variant matcher returns `ExactTitle t` precisely when `t`
is the first track in catalog order whose normalized title contains the
normalized search term as a substring; an exact-title result exists exactly
when some track's normalized title contains the normalized term, and such a
hit preempts any category matches accumulated earlier in the scan (the
result is exact whenever the first-hit condition holds, whatever the
category hits). -/
theorem play_exact_title_first_match (tracks : List TabletopAudioTrack) (s : String) :
    (∀ t, matchTracks tracks s = MatchResult.exact t ↔
        tracks.find? (titleHit (sanitizeTitle s)) = some t)
    ∧ ((∃ t, matchTracks tracks s = MatchResult.exact t) ↔
        ∃ tr, tr ∈ tracks ∧
          hasSubstr (sanitizeTitle tr.track_title) (sanitizeTitle s) = true) := by
  constructor
  · intro t
    exact matchLoop_exact_iff (sanitizeTitle s) tracks [] t
  · constructor
    · rintro ⟨t, ht⟩
      have hfind := (matchLoop_exact_iff (sanitizeTitle s) tracks [] t).mp ht
      have hp : titleHit (sanitizeTitle s) t = true := List.find?_some hfind
      exact ⟨t, List.mem_of_find?_eq_some hfind, hp⟩
    · rintro ⟨tr, hmem, hp⟩
      have hsome : (tracks.find? (titleHit (sanitizeTitle s))).isSome :=
        List.find?_isSome.mpr ⟨tr, hmem, hp⟩
      rcases Option.isSome_iff_exists.mp hsome with ⟨t, ht⟩
      exact ⟨t, (matchLoop_exact_iff (sanitizeTitle s) tracks [] t).mpr ht⟩

/-- C2: with no exact-title hit, the play-variant matcher yields the
category set: exactly the tracks whose (lower-cased) genres or tags contain
the colon-normalized search term as a full-string member, in catalog order;
when that set is non-empty the play variant's random representative is an
element of it. -/
theorem play_category_set (tracks : List TabletopAudioTrack) (s : String)
    (hno : tracks.find? (titleHit (sanitizeTitle s)) = none) :
    (matchTracks tracks s =
      if (tracks.filter (categoryHit (sanitizeTitle s))).isEmpty then MatchResult.noMatch
      else MatchResult.category (tracks.filter (categoryHit (sanitizeTitle s))))
    ∧ (∀ tr, tr ∈ tracks.filter (categoryHit (sanitizeTitle s)) ↔
        tr ∈ tracks ∧
          ((tr.track_genre.map lowerString).contains (sanitizeTitle s)
            || (tr.tags.map lowerString).contains (sanitizeTitle s)) = true)
    ∧ (∀ catRand, tracks.filter (categoryHit (sanitizeTitle s)) = []
        ∨ (tracks.filter (categoryHit (sanitizeTitle s))).getD
            (catRand % (tracks.filter (categoryHit (sanitizeTitle s))).length) defaultTrack
            ∈ tracks.filter (categoryHit (sanitizeTitle s))) := by
  refine ⟨?_, ?_, ?_⟩
  · have h := matchLoop_of_find_none (sanitizeTitle s) tracks hno []
    simpa [matchTracks] using h
  · intro tr
    exact List.mem_filter
  · intro catRand
    by_cases hne : tracks.filter (categoryHit (sanitizeTitle s)) = []
    · exact Or.inl hne
    · exact Or.inr (getD_mod_mem hne catRand defaultTrack)

/-- C3: the session coming out of the play handler carries the selected
track as `currentTrack` on any successful match (exact or category), and
the unchanged previous `currentTrack` on no match. -/
theorem play_currentTrack_update (st : Session) (s : String) (catRand : Nat)
    (sugRand : Nat → Nat) :
    ((playHandler st s catRand sugRand).1).currentTrack =
      (match matchTracks (st.json.getD { tracks := [] }).tracks s with
       | MatchResult.exact t => some t
       | MatchResult.category cs => some (cs.getD (catRand % cs.length) defaultTrack)
       | MatchResult.noMatch => st.currentTrack) := by
  simp only [playHandler, matchTracks]
  rw [playLoop_fst]
  cases matchLoop (sanitizeTitle s) (st.json.getD { tracks := [] }).tracks [] <;> rfl

/-- C10: a search term whose normal form is empty (for instance the empty
string, or a string of colons only) always produces an exact-title hit on
the first track of a non-empty catalog: the empty string is a substring of
every title, so the category and no-match branches are unreachable. -/
theorem play_empty_search_first_track (tracks : List TabletopAudioTrack) (s : String)
    (hne : tracks ≠ []) (hempty : sanitizeTitle s = "") :
    matchTracks tracks s = MatchResult.exact (tracks.getD 0 defaultTrack) := by
  cases tracks with
  | nil => exact absurd rfl hne
  | cons a rest =>
    rw [matchTracks, hempty]
    have ht : titleHit "" a = true := by
      simp [titleHit, hasSubstr]
    rw [matchLoop, if_pos ht]
    rfl

/-- A catalog track whose title strictly contains the next track's title. -/
def roundTripTrackA : TabletopAudioTrack :=
  { track_title := "Forest Day Extended", track_genre := ["ambient"], tags := ["nature"]
    link := "", large_image := "", flavor_text := "" }

/-- A catalog track whose title is a substring of the previous one's. -/
def roundTripTrackB : TabletopAudioTrack :=
  { track_title := "Forest Day", track_genre := ["ambient"], tags := ["nature"]
    link := "", large_image := "", flavor_text := "" }

/-- C4 counterexample: searching the normalized title of a track present in
the catalog need NOT return that same track: the first track whose
normalized title contains the term wins, and here an earlier, longer title
contains the later title. -/
theorem play_roundtrip_not_same_track_cex :
    roundTripTrackB ∈ [roundTripTrackA, roundTripTrackB]
    ∧ matchTracks [roundTripTrackA, roundTripTrackB]
        (sanitizeTitle roundTripTrackB.track_title) = MatchResult.exact roundTripTrackA
    ∧ roundTripTrackA ≠ roundTripTrackB := by
  refine ⟨by simp, by decide, by decide⟩

/-- C4 amended: matching a catalog against the normalized title of one of
its tracks always yields an exact-title result, whose track is the first
one in catalog order whose normalized title contains the normalized search
(not necessarily the track the title came from). -/
theorem play_roundtrip_exact_first (tracks : List TabletopAudioTrack)
    (tr : TabletopAudioTrack) (hmem : tr ∈ tracks) :
    ∃ t', tracks.find? (titleHit (sanitizeTitle tr.track_title)) = some t'
      ∧ matchTracks tracks (sanitizeTitle tr.track_title) = MatchResult.exact t' := by
  have hhit : titleHit (sanitizeTitle tr.track_title) tr = true := by
    simp [titleHit, hasSubstr]
  have hsome : (tracks.find? (titleHit (sanitizeTitle tr.track_title))).isSome :=
    List.find?_isSome.mpr ⟨tr, hmem, hhit⟩
  rcases Option.isSome_iff_exists.mp hsome with ⟨t', ht'⟩
  refine ⟨t', ht', ?_⟩
  rw [matchTracks, sanitizeTitle_idem]
  exact (matchLoop_exact_iff (sanitizeTitle tr.track_title) tracks [] t').mpr ht'

/-- Witness for the amended C4 theorem at a concrete one-track catalog. -/
theorem play_roundtrip_exact_first_witness :
    roundTripTrackB ∈ [roundTripTrackB]
    ∧ ∃ t', [roundTripTrackB].find?
          (titleHit (sanitizeTitle roundTripTrackB.track_title)) = some t'
        ∧ matchTracks [roundTripTrackB]
            (sanitizeTitle roundTripTrackB.track_title) = MatchResult.exact t' :=
  ⟨by simp, play_roundtrip_exact_first [roundTripTrackB] roundTripTrackB (by simp)⟩

/-- C5: on a non-empty catalog whose tracks all carry at least one genre
and one tag, the suggestion generator returns exactly six entries; entry
`i` is the title of some catalog track when `i % 3 = 0`, the first genre of
some catalog track when `i % 3 = 1`, and the first tag of some catalog
track when `i % 3 = 2`, the track being drawn independently per slot. -/
theorem suggest_six_shape (tracks : List TabletopAudioTrack) (rand : Nat → Nat)
    (hne : tracks ≠ []) (hfields : ∀ t ∈ tracks, t.track_genre ≠ [] ∧ t.tags ≠ []) :
    (getSuggestions tracks rand).length = 6
    ∧ ∀ i, i < 6 → ∃ t, t ∈ tracks
        ∧ (i % 3 = 0 → (getSuggestions tracks rand).getD i "" = t.track_title)
        ∧ (i % 3 = 1 → (getSuggestions tracks rand).getD i "" = t.track_genre.getD 0 ""
            ∧ (getSuggestions tracks rand).getD i "" ∈ t.track_genre)
        ∧ (i % 3 = 2 → (getSuggestions tracks rand).getD i "" = t.tags.getD 0 ""
            ∧ (getSuggestions tracks rand).getD i "" ∈ t.tags) := by
  constructor
  · simp [getSuggestions]
  · intro i hi
    have hlen : ((List.range 6).map (fun i =>
        let randomTrack := tracks.getD (rand i % tracks.length) defaultTrack
        (suggestionGenerators.getD (i % 3) getSuggestionTrackTitle) randomTrack)).length = 6 := by
      simp
    have hval : (getSuggestions tracks rand).getD i "" =
        (suggestionGenerators.getD (i % 3) getSuggestionTrackTitle)
          (tracks.getD (rand i % tracks.length) defaultTrack) := by
      rw [getSuggestions, List.getD_eq_getElem _ _ (by simpa using hi)]
      simp
    refine ⟨tracks.getD (rand i % tracks.length) defaultTrack,
      getD_mod_mem hne (rand i) defaultTrack, ?_, ?_, ?_⟩
    · intro h0
      rw [hval, h0]
      rfl
    · intro h1
      rw [hval, h1]
      refine ⟨rfl, ?_⟩
      have hg := (hfields _ (getD_mod_mem hne (rand i) defaultTrack)).1
      rcases List.exists_cons_of_ne_nil hg with ⟨g, gs, hgl⟩
      show (tracks.getD (rand i % tracks.length) defaultTrack).track_genre.getD 0 ""
          ∈ (tracks.getD (rand i % tracks.length) defaultTrack).track_genre
      rw [hgl]
      simp
    · intro h2
      rw [hval, h2]
      refine ⟨rfl, ?_⟩
      have hg := (hfields _ (getD_mod_mem hne (rand i) defaultTrack)).2
      rcases List.exists_cons_of_ne_nil hg with ⟨g, gs, hgl⟩
      show (tracks.getD (rand i % tracks.length) defaultTrack).tags.getD 0 ""
          ∈ (tracks.getD (rand i % tracks.length) defaultTrack).tags
      rw [hgl]
      simp

/-- Witness catalog track with a genre and a tag. -/
def witnessTrack : TabletopAudioTrack :=
  { track_title := "Cave of Time", track_genre := ["fantasy"], tags := ["cave"]
    link := "https://example.test/audio", large_image := "", flavor_text := "A cave." }

/-- Witness for C5 at a one-track catalog and the constant draw 0. -/
theorem suggest_six_shape_witness :
    ([witnessTrack] ≠ ([] : List TabletopAudioTrack))
    ∧ ((getSuggestions [witnessTrack] (fun _ => 0)).length = 6
      ∧ ∀ i, i < 6 → ∃ t, t ∈ [witnessTrack]
          ∧ (i % 3 = 0 → (getSuggestions [witnessTrack] (fun _ => 0)).getD i "" = t.track_title)
          ∧ (i % 3 = 1 → (getSuggestions [witnessTrack] (fun _ => 0)).getD i "" = t.track_genre.getD 0 ""
              ∧ (getSuggestions [witnessTrack] (fun _ => 0)).getD i "" ∈ t.track_genre)
          ∧ (i % 3 = 2 → (getSuggestions [witnessTrack] (fun _ => 0)).getD i "" = t.tags.getD 0 ""
              ∧ (getSuggestions [witnessTrack] (fun _ => 0)).getD i "" ∈ t.tags)) :=
  ⟨by decide, suggest_six_shape [witnessTrack] (fun _ => 0) (by decide)
    (by intro t ht; simp at ht; subst ht; exact ⟨by decide, by decide⟩)⟩

/-- C6: the search variant counts as hits exactly the tracks whose
lower-cased title contains the lower-cased term as a substring or whose
lower-cased genres or tags contain it as an exact member (no colon
normalization is applied: only `lowerString` appears); it reports the
single title when there is exactly one hit, the count with the first three
titles (and up to eight chips) when there are several, and the fallback
when there are none — and it selects no track (the session is unchanged). -/
theorem search_variant_spec (st : Session) (s : String) (sugRand : Nat → Nat) :
    (searchHandler st s sugRand).1 = st
    ∧ searchTrackOut (lowerString s) (st.json.getD { tracks := [] }).tracks =
        ((st.json.getD { tracks := [] }).tracks.filter (searchPred (lowerString s))).map
          TabletopAudioTrack.track_title
    ∧ (∀ tr, tr ∈ (st.json.getD { tracks := [] }).tracks.filter (searchPred (lowerString s)) ↔
        tr ∈ (st.json.getD { tracks := [] }).tracks ∧
          (hasSubstr (lowerString tr.track_title) (lowerString s)
            || (tr.track_genre.map lowerString).contains (lowerString s)
            || (tr.tags.map lowerString).contains (lowerString s)) = true)
    ∧ (searchHandler st s sugRand).2 =
        (let trackOut := searchTrackOut (lowerString s) (st.json.getD { tracks := [] }).tracks
         if trackOut.length = 1 then SearchOutcome.one (trackOut.getD 0 "")
         else if 1 < trackOut.length then
           SearchOutcome.many trackOut.length (trackOut.take 3) (trackOut.take 8)
         else SearchOutcome.noneFound
           "I am unable to find that audio for you. What else do you want to listen to?"
           ("I am unable to find that audio, but I found others like "
             ++ (getSuggestions (st.json.getD { tracks := [] }).tracks sugRand).getD 0 ""
             ++ ". What would you like to listen to?")
           (getSuggestions (st.json.getD { tracks := [] }).tracks sugRand)) := by
  refine ⟨searchHandler_fst st s sugRand, searchTrackOut_eq _ _, ?_, ?_⟩
  · intro tr
    exact List.mem_filter
  · simp only [searchHandler]
    by_cases h1 : (searchTrackOut (lowerString s) (st.json.getD { tracks := [] }).tracks).length = 1
    · simp [h1]
    · by_cases h2 : 1 < (searchTrackOut (lowerString s) (st.json.getD { tracks := [] }).tracks).length
      · simp [h1, h2]
      · simp [h1, h2]

/-- C7: `sanitizeTitle` is the pure pipeline that lower-cases its input,
replaces each (leftmost, non-overlapping) `<word>:<word>` pattern by the
two word characters separated by one space, and then deletes every
remaining colon; consequently its output never contains a colon. -/
theorem sanitizeTitle_pipeline_no_colon (s : String) :
    sanitizeTitle s =
      String.mk (List.filter (fun c => c != ':') (replColonPass (List.map Char.toLower s.data)))
    ∧ (sanitizeTitle s).data.all (fun c => c != ':') = true := by
  refine ⟨rfl, ?_⟩
  rw [List.all_eq_true]
  intro c hc
  simpa using sanitizeTitle_no_colon s c hc

/-- C8: once the session's catalog is populated, the cache step performs no
fetch and leaves the session unchanged; a second cache step never fetches
either (at most one fetch per session), and none of the handlers ever
writes to the cached catalog. -/
theorem cache_populated_no_refetch (st : Session) (f f' : TabletopAudioResponse)
    (s : String) (catRand : Nat) (sugRand : Nat → Nat)
    (hpop : st.json.isSome = true) :
    cacheResults st f = (st, false)
    ∧ (cacheResults (cacheResults st f).1 f').2 = false
    ∧ (playHandler st s catRand sugRand).1.json = st.json
    ∧ (searchHandler st s sugRand).1.json = st.json
    ∧ (repeatHandler st sugRand).1.json = st.json := by
  have hfirst : cacheResults st f = (st, false) := by
    rw [cacheResults, if_pos hpop]
  refine ⟨hfirst, ?_, playHandler_fst_json st s catRand sugRand, ?_, ?_⟩
  · rw [hfirst]
    rw [cacheResults, if_pos hpop]
  · rw [searchHandler_fst]
  · rw [repeatHandler_fst]

/-- Witness for C8 at a concrete populated session. -/
theorem cache_populated_no_refetch_witness :
    (Session.mk (some { tracks := [witnessTrack] }) none).json.isSome = true
    ∧ (cacheResults (Session.mk (some { tracks := [witnessTrack] }) none) { tracks := [] }
        = (Session.mk (some { tracks := [witnessTrack] }) none, false)
      ∧ (cacheResults (cacheResults (Session.mk (some { tracks := [witnessTrack] }) none)
          { tracks := [] }).1 { tracks := [] }).2 = false
      ∧ (playHandler (Session.mk (some { tracks := [witnessTrack] }) none) "cave" 0
          (fun _ => 0)).1.json = (Session.mk (some { tracks := [witnessTrack] }) none).json
      ∧ (searchHandler (Session.mk (some { tracks := [witnessTrack] }) none) "cave"
          (fun _ => 0)).1.json = (Session.mk (some { tracks := [witnessTrack] }) none).json
      ∧ (repeatHandler (Session.mk (some { tracks := [witnessTrack] }) none)
          (fun _ => 0)).1.json = (Session.mk (some { tracks := [witnessTrack] }) none).json) :=
  ⟨rfl, cache_populated_no_refetch (Session.mk (some { tracks := [witnessTrack] }) none)
    { tracks := [] } { tracks := [] } "cave" 0 (fun _ => 0) rfl⟩

/-- C9: the repeat handler leaves the session unchanged; with no current
track it sends the fallback line and a suggestion list and emits no media
object, and with a current track set it emits the media object of exactly
that track. -/
theorem repeat_handler_spec (st : Session) (sugRand : Nat → Nat) :
    (repeatHandler st sugRand).1 = st
    ∧ (repeatHandler st sugRand).2.all (fun fr => ! fr.isMedia) = st.currentTrack.isNone
    ∧ (repeatHandler st sugRand).2.any Fragment.isSugg = true
    ∧ (repeatHandler st sugRand).2.filter Fragment.isMedia =
        (st.currentTrack.map (fun t => Fragment.media (generateMediaResponse t))).toList
    ∧ (repeatHandler st sugRand).2.getD 0 (Fragment.text "") =
        (match st.currentTrack with
         | none => Fragment.text repeatFallbackText
         | some t => Fragment.text ("Once again, here's " ++ t.track_title)) := by
  cases h : st.currentTrack with
  | none =>
    refine ⟨repeatHandler_fst st sugRand, ?_, ?_, ?_, ?_⟩ <;>
      simp [repeatHandler, h, Fragment.isMedia, Fragment.isSugg]
  | some t =>
    refine ⟨repeatHandler_fst st sugRand, ?_, ?_, ?_, ?_⟩ <;>
      simp [repeatHandler, h, Fragment.isMedia, Fragment.isSugg]

/-- A track hit only through its genre, for the C2 witness. -/
def combatTrack : TabletopAudioTrack :=
  { track_title := "Dungeon Depths", track_genre := ["combat"], tags := ["battle"]
    link := "", large_image := "", flavor_text := "" }

/-- Witness for C2 at a concrete catalog with a genre hit and no title hit. -/
theorem play_category_set_witness :
    [combatTrack].find? (titleHit (sanitizeTitle "Combat")) = none
    ∧ ((matchTracks [combatTrack] "Combat" =
        if ([combatTrack].filter (categoryHit (sanitizeTitle "Combat"))).isEmpty then
          MatchResult.noMatch
        else MatchResult.category ([combatTrack].filter (categoryHit (sanitizeTitle "Combat"))))
      ∧ (∀ tr, tr ∈ [combatTrack].filter (categoryHit (sanitizeTitle "Combat")) ↔
          tr ∈ [combatTrack] ∧
            ((tr.track_genre.map lowerString).contains (sanitizeTitle "Combat")
              || (tr.tags.map lowerString).contains (sanitizeTitle "Combat")) = true)
      ∧ (∀ catRand, [combatTrack].filter (categoryHit (sanitizeTitle "Combat")) = []
          ∨ ([combatTrack].filter (categoryHit (sanitizeTitle "Combat"))).getD
              (catRand % ([combatTrack].filter (categoryHit (sanitizeTitle "Combat"))).length)
              defaultTrack
              ∈ [combatTrack].filter (categoryHit (sanitizeTitle "Combat")))) :=
  ⟨by decide, play_category_set [combatTrack] "Combat" (by decide)⟩

/-- Witness for C10: a colons-only search term against a one-track catalog. -/
theorem play_empty_search_first_track_witness :
    ([witnessTrack] ≠ ([] : List TabletopAudioTrack))
    ∧ sanitizeTitle ":::" = ""
    ∧ matchTracks [witnessTrack] ":::" =
        MatchResult.exact ([witnessTrack].getD 0 defaultTrack) :=
  ⟨by simp, by decide, play_empty_search_first_track [witnessTrack] ":::" (by simp) (by decide)⟩
